import Mathlib

/-! keptn go-utils: the API handler and the Stages model

A shallow embedding of `pkg/api/utils/apiUtils.go` and `pkg/api/models/stages.go`.

Conventions of the embedding.

* A Go `string` and a Go `[]byte` are Lean `String`s; `len` is the byte length. The one
  exception is the field `NextPageKey` of `Stages`, kept as the bytes of the Go string,
  because its JSON encoding depends on whether they are well-formed UTF-8.
* A Go pointer result is an `Option`: `nil` is `none`.
* A Go `error` coming out of a library call is represented by its `Error()` text.
* What the Go standard library and the network decide (`http.NewRequest`, `Client.Do`,
  `ioutil.ReadAll`, `json.Unmarshal`) is a parameter of the functions that call it, so that
  every theorem holds for every behaviour of the library and of the server.
* A run of `getEvent` or `GetMetadata` yields an `Outcome` (a normal return, or a nil
  dereference) together with the operations performed on the response body, in order.
-/

namespace Keptn

set_option linter.dupNamespace false

deriving instance DecidableEq for Except

/-! ## Go built-ins and `strings` -/

/-- Go `len` of a string or byte slice: the number of bytes. -/
def len (s : String) : Nat := s.utf8ByteSize

namespace strings

/-- Go `strings.HasPrefix`. The comparison is made on characters, which agrees with the
byte comparison of Go on well-formed UTF-8 text. -/
def HasPrefix (s pre : String) : Bool := pre.data.isPrefixOf s.data

/-- Go `strings.TrimPrefix`: `s` without the leading `pre`, or `s` itself when it does not
start with `pre`. -/
def TrimPrefix (s pre : String) : String :=
  if HasPrefix s pre then String.mk (s.data.drop pre.data.length) else s

end strings

namespace strconv

/-- Go `strconv.Itoa` on a non-negative index: the decimal rendering. -/
def Itoa (i : Nat) : String := Nat.repr i

end strconv

/-! ## `net/http` as far as the handler uses it -/

namespace http

/-- An `http.Request`: method, URL and the header fields set so far (latest first). -/
structure Request where
  Method : String
  URL : String
  Header : List (String × String)
deriving DecidableEq, Repr

/-- The call `req.Header.Set(key, value)`. -/
def Request.HeaderSet (req : Request) (key value : String) : Request :=
  Request.mk req.Method req.URL ((key, value) :: req.Header.filter (fun kv => kv.1 ≠ key))

/-- An `http.Response` as the handler sees it: the status code, and what
`ioutil.ReadAll(resp.Body)` yields (the bytes read, or the text of the read failure). -/
structure Response where
  StatusCode : Int
  Body : Except String String

/-- A transport (`http.RoundTripper`): what comes back for a request, a response or the
text of the failure. -/
abbrev RoundTripper := Request → Except String Response

/-- An `http.Client`; only its transport matters here. -/
structure Client where
  Transport : RoundTripper

/-- The call `client.Do(req)`: a response, or the text of the error. -/
def Client.Do (c : Client) (req : Request) : Except String Response := c.Transport req

end http

/-! ## `models` -/

namespace models

/-- Modelled from the spec: the type `models.Error` is declared in another file of the package;
the spec describes it as "API Error: {message: optional string}". -/
structure Error where
  Message : Option String
deriving DecidableEq, Repr

/-- Modelled from the spec: the type `models.Project` is declared in another file of the package;
the spec uses it as `DeleteProject({ProjectName:"p1"})`. -/
structure Project where
  ProjectName : String
deriving DecidableEq, Repr

end models

/-! ## `apiUtils.go` -/

/-- The struct `APIHandler`. -/
structure APIHandler where
  BaseURL : String
  AuthToken : String
  AuthHeader : String
  HTTPClient : http.Client
  Scheme : String

/-- The function `NewAuthenticatedAPIHandler`. `httpClient` is `none` for a nil client;
`getClientTransport` is the value of the call `getClientTransport()`, a function defined
in another file of the package, and `defaultClient` is `&http.Client{}`. -/
def NewAuthenticatedAPIHandler (getClientTransport : http.RoundTripper)
    (defaultClient : http.Client) (baseURL authToken authHeader : String)
    (httpClient : Option http.Client) (scheme : String) : APIHandler :=
  let httpClient := match httpClient with
    | none => defaultClient
    | some c => c
  let httpClient := { httpClient with Transport := getClientTransport }
  let baseURL := strings.TrimPrefix baseURL "http://"
  let baseURL := strings.TrimPrefix baseURL "https://"
  APIHandler.mk baseURL authToken authHeader httpClient scheme

/-- The method `getBaseURL`. -/
def APIHandler.getBaseURL (a : APIHandler) : String := a.BaseURL

/-- The method `getAuthToken`. -/
def APIHandler.getAuthToken (a : APIHandler) : String := a.AuthToken

/-- The method `getAuthHeader`. -/
def APIHandler.getAuthHeader (a : APIHandler) : String := a.AuthHeader

/-- The method `getHTTPClient`. -/
def APIHandler.getHTTPClient (a : APIHandler) : http.Client := a.HTTPClient

/-- Modelled from the spec: `addAuthHeader` is defined in another file of the package; the spec
says the auth header `<authHeaderName>: <authToken>` is attached when both are non-empty. -/
def addAuthHeader (req : http.Request) (api : APIHandler) : http.Request :=
  if api.getAuthToken ≠ "" ∧ api.getAuthHeader ≠ "" then
    req.HeaderSet api.getAuthHeader api.getAuthToken
  else req

/-- Modelled from the spec: `buildErrorResponse` is defined in another file of the package; the
spec says a local failure becomes "a synthesized API Error wrapping the underlying
failure's message". -/
def buildErrorResponse (errorStr : String) : models.Error := models.Error.mk (some errorStr)

/-- An operation on a response body. -/
inductive BodyOp where
  | ReadAll
  | Close
deriving DecidableEq, Repr

/-- How a call ends: it returns the pair (result, error), or it aborts on a nil
dereference. -/
inductive Outcome (α : Type) where
  | ret (result : Option α) (err : Option models.Error)
  | nilDereference
deriving DecidableEq, Repr

/-- A run: how the call ended, and the operations made on the response body, in order. -/
structure Run (α : Type) where
  outcome : Outcome α
  bodyOps : List BodyOp
deriving DecidableEq, Repr

/-- A run that touches no response body. -/
def Run.pure {α : Type} (o : Outcome α) : Run α := Run.mk o []

/-- The statement `defer resp.Body.Close()`: the rest of the function runs, then the body is
closed as the function returns. -/
def deferClose {α : Type} (rest : Run α) : Run α := Run.mk rest.outcome (rest.bodyOps ++ [BodyOp.Close])

/-- The call `ioutil.ReadAll(resp.Body)` followed by `k` on what it yields. -/
def readAll {α : Type} (resp : http.Response) (k : Except String String → Outcome α) : Run α :=
  Run.mk (k resp.Body) [BodyOp.ReadAll]

/-- The function `getEvent`, with `models.KeptnContextExtendedCE` (declared in another
file) as the type `CE`. `NewRequest` is `http.NewRequest`, `unmarshalCE` is
`json.Unmarshal` into a fresh `CE` and `unmarshalError` is `json.Unmarshal` into a fresh
`models.Error`. -/
def getEvent {CE : Type} (NewRequest : String → String → Except String http.Request)
    (unmarshalCE : String → Except String CE)
    (unmarshalError : String → Except String models.Error)
    (uri : String) (api : APIHandler) : Run CE :=
  match NewRequest "GET" uri with
  | .error _ =>
    -- req is nil and err is not looked at: req.Header.Set dereferences nil
    Run.pure Outcome.nilDereference
  | .ok req =>
    let req := req.HeaderSet "Content-Type" "application/json"
    let req := addAuthHeader req api
    match api.getHTTPClient.Do req with
    | .error err => Run.pure (Outcome.ret none (some (buildErrorResponse err)))
    | .ok resp =>
      deferClose <| readAll resp fun
        | .error err => Outcome.ret none (some (buildErrorResponse err))
        | .ok body =>
          if resp.StatusCode ≥ 200 ∧ resp.StatusCode < 300 then
            if len body > 0 then
              match unmarshalCE body with
              | .error err => Outcome.ret none (some (buildErrorResponse err))
              | .ok cloudEvent => Outcome.ret (some cloudEvent) none
            else Outcome.ret none none
          else
            match unmarshalError body with
            | .error err => Outcome.ret none (some (buildErrorResponse err))
            | .ok respErr => Outcome.ret none (some respErr)

/-- The method `GetEvent`. -/
def APIHandler.GetEvent {CE : Type} (NewRequest : String → String → Except String http.Request)
    (unmarshalCE : String → Except String CE)
    (unmarshalError : String → Except String models.Error)
    (a : APIHandler) (keptnContext eventType : String) : Run CE :=
  getEvent NewRequest unmarshalCE unmarshalError
    (a.Scheme ++ "://" ++ a.getBaseURL ++ "/v1/event?keptnContext=" ++ keptnContext
      ++ "&type=" ++ eventType ++ "&pageSize=10") a

/-- The method `GetMetadata`, with `models.Metadata` (declared in another file)
as the type `MD`. `NewRequest` is `http.NewRequest`, `unmarshalMD` is `json.Unmarshal` into
a fresh `MD` and `unmarshalError` is `json.Unmarshal` into a fresh `models.Error`. -/
def APIHandler.GetMetadata {MD : Type}
    (NewRequest : String → String → Except String http.Request)
    (unmarshalMD : String → Except String MD)
    (unmarshalError : String → Except String models.Error)
    (a : APIHandler) : Run MD :=
  match NewRequest "GET" (a.Scheme ++ "://" ++ a.getBaseURL ++ "/v1/metadata") with
  | .error _ =>
    -- req is nil and err is not looked at: req.Header.Set dereferences nil
    Run.pure Outcome.nilDereference
  | .ok req =>
    let req := req.HeaderSet "Content-Type" "application/json"
    let req := addAuthHeader req a
    match a.getHTTPClient.Do req with
    | .error err => Run.pure (Outcome.ret none (some (buildErrorResponse err)))
    | .ok resp =>
      deferClose <| readAll resp fun
        | .error err => Outcome.ret none (some (buildErrorResponse err))
        | .ok body =>
          if resp.StatusCode ≥ 200 ∧ resp.StatusCode < 300 then
            if len body > 0 then
              match unmarshalMD body with
              | .error err => Outcome.ret none (some (buildErrorResponse err))
              | .ok respMetadata => Outcome.ret (some respMetadata) none
            else Outcome.ret none none
          else
            match unmarshalError body with
            | .error err => Outcome.ret none (some (buildErrorResponse err))
            | .ok respErr => Outcome.ret none (some respErr)

/-- The method `DeleteProject`, with `models.DeleteProjectResponse` (declared in another
file) as the type `R`. `delete` is the transport primitive of that name, defined in
another file of the package: it yields the raw body and an error or nil. `unmarshal` is
`json.Unmarshal` into `&models.DeleteProjectResponse{}`. -/
def APIHandler.DeleteProject {R : Type} (delete : String → APIHandler → String × Option models.Error)
    (unmarshal : String → Except String R)
    (a : APIHandler) (project : models.Project) : Option R × Option models.Error :=
  match delete (a.Scheme ++ "://" ++ a.getBaseURL ++ "/shipyard-controller/v1/project/"
      ++ project.ProjectName) a with
  | (_, some err) => (none, some err)
  | (resp, none) =>
    match unmarshal resp with
    | .error err2 =>
      let msg := "Could not decode DeleteProjectResponse: " ++ err2
      (none, some (models.Error.mk (some msg)))
    | .ok deletePrjResponse => (some deletePrjResponse, none)

/-- The method `DeleteService`, with `models.DeleteServiceResponse` (declared in another
file) as the type `R`; `delete` and `unmarshal` as in `DeleteProject`. -/
def APIHandler.DeleteService {R : Type} (delete : String → APIHandler → String × Option models.Error)
    (unmarshal : String → Except String R)
    (a : APIHandler) (project service : String) : Option R × Option models.Error :=
  match delete (a.Scheme ++ "://" ++ a.getBaseURL ++ "/shipyard-controller/v1/project/"
      ++ project ++ "/service/" ++ service) a with
  | (_, some err) => (none, some err)
  | (resp, none) =>
    match unmarshal resp with
    | .error err2 =>
      let msg := "Could not decode DeleteServiceResponse: " ++ err2
      (none, some (models.Error.mk (some msg)))
    | .ok deleteSvcResponse => (some deleteSvcResponse, none)

/-! ## `stages.go` -/

/-- A Go `error` value as `Stages.Validate` tells them apart: a `*errors.Validation` (kept
as the type `V`: go-openapi declares it), the `*errors.CompositeError` built by
`errors.CompositeValidationError`, or any other error, given by its text. -/
inductive GoError (V : Type) where
  | validation (ve : V)
  | composite (errs : List (GoError V))
  | other (msg : String)

namespace swag

/-- The go-openapi function `swag.IsZero` at a slice or a pointer: true exactly at nil. -/
def IsZero {α : Type} (data : Option α) : Bool := data.isNone

end swag

namespace models

/-- The struct `Stages`, with `models.Stage` (declared in another file) as the
type `Stage`. A nil slice is `none`; a nil element is `none`; `NextPageKey` is the bytes of
the Go string. -/
structure Stages (Stage : Type) where
  NextPageKey : List UInt8
  PageSize : Float
  Stages : Option (List (Option Stage))
  TotalCount : Float

/-- The loop of `validateStages` from index `i` on, `stages` being the elements from that
index to the end. `validateStage` is `(*Stage).Validate`, defined in another
file, and `ValidateName` is `(*errors.Validation).ValidateName` of go-openapi. -/
def Stages.validateStagesLoop {Stage V F : Type} (validateStage : F → Stage → Option (GoError V))
    (ValidateName : V → String → V) (formats : F) :
    Nat → List (Option Stage) → Option (GoError V)
  | _, [] => none
  | i, stage :: stages =>
    if swag.IsZero stage then
      validateStagesLoop validateStage ValidateName formats (i + 1) stages
    else
      match stage with
      | none => validateStagesLoop validateStage ValidateName formats (i + 1) stages
      | some stage =>
        match validateStage formats stage with
        | some (GoError.validation ve) =>
          some (GoError.validation (ValidateName ve ("stages" ++ "." ++ strconv.Itoa i)))
        | some err => some err
        | none => validateStagesLoop validateStage ValidateName formats (i + 1) stages

/-- The method `validateStages`. -/
def Stages.validateStages {Stage V F : Type} (validateStage : F → Stage → Option (GoError V))
    (ValidateName : V → String → V) (m : models.Stages Stage) (formats : F) : Option (GoError V) :=
  if swag.IsZero m.Stages then none
  else
    match m.Stages with
    | none => none
    | some stages => Stages.validateStagesLoop validateStage ValidateName formats 0 stages

/-- The method `Validate`; `errors.CompositeValidationError(res...)` is
`GoError.composite res`. -/
def Stages.Validate {Stage V F : Type} (validateStage : F → Stage → Option (GoError V))
    (ValidateName : V → String → V) (m : models.Stages Stage) (formats : F) : Option (GoError V) :=
  let res : List (GoError V) := []
  let res := match m.validateStages validateStage ValidateName formats with
    | some err => res ++ [err]
    | none => res
  if res.length > 0 then some (GoError.composite res) else none

/-- The zero value of `Stages`, as `var res Stages` declares it. -/
def Stages.zero {Stage : Type} : models.Stages Stage := Stages.mk [] 0 none 0

/-- The method `MarshalBinary`, returning the pair (bytes, error); `m` is `none` for a nil
receiver. `WriteJSON` is `swag.WriteJSON` at a `*Stages`: the bytes, or the text of the
error. -/
def Stages.MarshalBinary {Stage : Type} (WriteJSON : models.Stages Stage → Except String String)
    (m : Option (models.Stages Stage)) : Option String × Option String :=
  match m with
  | none => (none, none)
  | some m =>
    match WriteJSON m with
    | .ok b => (some b, none)
    | .error err => (none, some err)

/-- The method `UnmarshalBinary` on the receiver `m`, returning the receiver as the call
leaves it and the error. `ReadJSON` is `swag.ReadJSON`: the bytes are decoded into the value
passed with them, and the value so filled, or the text of the error, comes back. -/
def Stages.UnmarshalBinary {Stage : Type}
    (ReadJSON : String → models.Stages Stage → Except String (models.Stages Stage))
    (m : models.Stages Stage) (b : String) : models.Stages Stage × Option String :=
  let res : models.Stages Stage := Stages.zero
  match ReadJSON b res with
  | .error err => (m, some err)
  | .ok res => (res, none)

end models

/-! ## Concrete libraries and servers for the scenarios -/

namespace Scenario

/-- A `http.NewRequest` that rejects a URL holding an ASCII control character, as
`url.Parse` does, and builds the request for every other URL. -/
def NewRequest (method uri : String) : Except String http.Request :=
  if uri.data.any (fun c => c.toNat < 32 || c.toNat == 127) then
    .error "net/url: invalid control character in URL"
  else .ok (http.Request.mk method uri [])

/-- A server that answers every request with the given status code and body. -/
def server (status : Int) (body : String) : http.Client :=
  http.Client.mk (fun _ => .ok (http.Response.mk status (.ok body)))

/-- The handler for `http://localhost` on the given client, without authentication. -/
def handler (c : http.Client) : APIHandler := APIHandler.mk "localhost" "" "" c "http"

/-- The decoding by `json.Unmarshal` of a struct whose one field is the string "message",
on the texts the scenarios use: the empty input is rejected with the message of
encoding/json, the empty object leaves the field unset, and an object with the one member
"message" and a plain string (no quote, no backslash) sets it. Every other text is outside
this fragment and is rejected. -/
def unmarshalMessage (body : String) : Except String (Option String) :=
  let opening := "\x7b\"message\":\"".data
  let closing := "\"\x7d".data
  let inner := (body.data.drop opening.length).take
    (body.data.length - opening.length - closing.length)
  if body.data = [] then .error "unexpected end of JSON input"
  else if body = "\x7b\x7d" then .ok none
  else if body.data = opening ++ inner ++ closing
      ∧ inner.all (fun c => c ≠ (Char.ofNat 34) ∧ c ≠ (Char.ofNat 92)) then
    .ok (some (String.mk inner))
  else .error "text outside the modelled fragment of JSON"

/-- The function `json.Unmarshal` into a `models.Error`, on the fragment above. -/
def unmarshalError (body : String) : Except String models.Error :=
  (unmarshalMessage body).map models.Error.mk

/-- Modelled from the spec: `models.DeleteProjectResponse` is declared in another file of
the package; the spec speaks of "a DeleteProjectResponse with that message". -/
structure DeleteResponse where
  Message : String
deriving DecidableEq, Repr

/-- The function `json.Unmarshal` into a zero-valued delete response, on the fragment
above. -/
def unmarshalDeleteResponse (body : String) : Except String DeleteResponse :=
  (unmarshalMessage body).map (fun m => DeleteResponse.mk (m.getD ""))

/-- A `delete` primitive that succeeds with the given raw body. -/
def deleteOK (body : String) : String → APIHandler → String × Option models.Error :=
  fun _ _ => (body, none)

/-- A stage is a name here; its `Validate` fails with a validation error (carrying the
name under which it is reported, empty at first) when the name is empty, with another
error when the name is "broken", and passes otherwise. -/
def validateStage (_ : Unit) (stage : String) : Option (GoError String) :=
  if stage = "" then some (GoError.validation "")
  else if stage = "broken" then some (GoError.other "broken stage")
  else none

/-- A `ValidateName` that records the given name. -/
def ValidateName (_ : String) (name : String) : String := name

/-- The content of a JSON string as encoding/json writes it, on the bytes the scenarios
use: a printable ASCII byte other than the quote, the backslash and the three characters
that are escaped for HTML is written as it is; a byte from 0xF5 on, which no well-formed
UTF-8 text holds, is replaced by the Unicode replacement character, written as the escape
of U+FFFD. Every other byte is outside this fragment. -/
def encodeString : List UInt8 → Option (List Char)
  | [] => some []
  | b :: bs =>
    if 32 ≤ b.toNat ∧ b.toNat < 127 ∧ b.toNat ≠ 34 ∧ b.toNat ≠ 92 ∧ b.toNat ≠ 60
        ∧ b.toNat ≠ 62 ∧ b.toNat ≠ 38 then
      (encodeString bs).map (fun cs => Char.ofNat b.toNat :: cs)
    else if 245 ≤ b.toNat then
      (encodeString bs).map (fun cs => "\\ufffd".data ++ cs)
    else none

/-- The content of a JSON string as encoding/json reads it, on the texts the scenarios
use: a printable ASCII character other than the quote and the backslash gives its byte, and
the escape of U+FFFD gives the three bytes of that character in UTF-8. `skip` counts the
characters of an escape still to pass over. Every other text is outside this fragment. -/
def decodeString : Nat → List Char → Option (List UInt8)
  | _, [] => some []
  | skip, c :: cs =>
    if skip > 0 then decodeString (skip - 1) cs
    else if "\\ufffd".data.isPrefixOf (c :: cs) then
      (decodeString 5 cs).map (fun bs => [239, 191, 189] ++ bs)
    else if 32 ≤ c.toNat ∧ c.toNat < 127 ∧ c.toNat ≠ 34 ∧ c.toNat ≠ 92 then
      (decodeString 0 cs).map (fun bs => c.toNat.toUInt8 :: bs)
    else none

/-- The function `swag.WriteJSON` (`json.Marshal`) on a `Stages` whose list is nil and whose
two numbers are zero, with the string encoded as above: the members in the order of the
fields, "nextPageKey" left out when empty, the numbers left out, "stages" written as null.
The numbers are not looked at; every other value is outside this fragment. -/
def WriteJSON (m : models.Stages String) : Except String String :=
  match m.Stages, encodeString m.NextPageKey with
  | none, some key =>
    .ok (String.mk ("\x7b".data
      ++ (if m.NextPageKey = [] then [] else "\"nextPageKey\":\"".data ++ key ++ "\",".data)
      ++ "\"stages\":null\x7d".data))
  | _, _ => .error "value outside the modelled fragment of JSON"

/-- The member "nextPageKey" of a text of the shape that `WriteJSON` above produces: `none`
when the text has no such member. Every other text is outside this fragment. -/
def readNextPageKey (b : String) : Except String (Option (List UInt8)) :=
  let opening := "\x7b\"nextPageKey\":\"".data
  let closing := "\",\"stages\":null\x7d".data
  let inner := (b.data.drop opening.length).take
    (b.data.length - opening.length - closing.length)
  if b = "\x7b\"stages\":null\x7d" then .ok none
  else if b.data = opening ++ inner ++ closing ∧ inner.all (fun c => c ≠ Char.ofNat 34) then
    match decodeString 0 inner with
    | some key => .ok (some key)
    | none => .error "text outside the modelled fragment of JSON"
  else .error "text outside the modelled fragment of JSON"

/-- The function `swag.ReadJSON` (`json.Unmarshal`) into `res`, on the texts that `WriteJSON`
above produces: "nextPageKey" is set when the text has the member, "stages" is set to nil,
and the numbers, which the text does not mention, are left as they are. -/
def ReadJSON (b : String) (res : models.Stages String) : Except String (models.Stages String) :=
  (readNextPageKey b).map
    (fun key => models.Stages.mk (key.getD res.NextPageKey) res.PageSize none res.TotalCount)

end Scenario

/-- Exactly one of the result and the error is nil. -/
def ExactlyOne {α : Type} (result : Option α) (err : Option models.Error) : Prop :=
  (result ≠ none ∧ err = none) ∨ (result = none ∧ err ≠ none)

/-! ## The outcome of `getEvent` and `GetMetadata` once the client has returned a response -/

theorem getEvent_run {CE : Type} (NewRequest : String → String → Except String http.Request)
    (unmarshalCE : String → Except String CE)
    (unmarshalError : String → Except String models.Error)
    (uri : String) (api : APIHandler) (req : http.Request) (resp : http.Response)
    (hNew : NewRequest "GET" uri = .ok req)
    (hDo : api.getHTTPClient.Do (addAuthHeader (req.HeaderSet "Content-Type" "application/json") api)
      = .ok resp) :
    getEvent NewRequest unmarshalCE unmarshalError uri api =
      Run.mk
        (match resp.Body with
          | .error err => Outcome.ret none (some (buildErrorResponse err))
          | .ok body =>
            if resp.StatusCode ≥ 200 ∧ resp.StatusCode < 300 then
              if len body > 0 then
                match unmarshalCE body with
                | .error err => Outcome.ret none (some (buildErrorResponse err))
                | .ok cloudEvent => Outcome.ret (some cloudEvent) none
              else Outcome.ret none none
            else
              match unmarshalError body with
              | .error err => Outcome.ret none (some (buildErrorResponse err))
              | .ok respErr => Outcome.ret none (some respErr))
        [BodyOp.ReadAll, BodyOp.Close] := by
  unfold getEvent
  simp only [hNew, hDo, deferClose, readAll, List.singleton_append]

theorem GetMetadata_run {MD : Type} (NewRequest : String → String → Except String http.Request)
    (unmarshalMD : String → Except String MD)
    (unmarshalError : String → Except String models.Error)
    (a : APIHandler) (req : http.Request) (resp : http.Response)
    (hNew : NewRequest "GET" (a.Scheme ++ "://" ++ a.getBaseURL ++ "/v1/metadata") = .ok req)
    (hDo : a.getHTTPClient.Do (addAuthHeader (req.HeaderSet "Content-Type" "application/json") a)
      = .ok resp) :
    a.GetMetadata NewRequest unmarshalMD unmarshalError =
      Run.mk
        (match resp.Body with
          | .error err => Outcome.ret none (some (buildErrorResponse err))
          | .ok body =>
            if resp.StatusCode ≥ 200 ∧ resp.StatusCode < 300 then
              if len body > 0 then
                match unmarshalMD body with
                | .error err => Outcome.ret none (some (buildErrorResponse err))
                | .ok respMetadata => Outcome.ret (some respMetadata) none
              else Outcome.ret none none
            else
              match unmarshalError body with
              | .error err => Outcome.ret none (some (buildErrorResponse err))
              | .ok respErr => Outcome.ret none (some respErr))
        [BodyOp.ReadAll, BodyOp.Close] := by
  unfold APIHandler.GetMetadata
  simp only [hNew, hDo, deferClose, readAll, List.singleton_append]

/-! ## The success path -/

/-- C1: when the client returns a response whose body reads as `body`, then for a status
code in [200,300) `getEvent` and `GetMetadata` return the decoded body with a nil error if
the body is non-empty and decodes, and (nil, nil) if the body is empty; for the status codes
199 and 300 they return a nil result with a non-nil error instead. -/
theorem getEvent_GetMetadata_success {CE MD : Type}
    (NewRequest : String → String → Except String http.Request)
    (unmarshalCE : String → Except String CE) (unmarshalMD : String → Except String MD)
    (unmarshalError : String → Except String models.Error)
    (uri : String) (api : APIHandler) (req : http.Request) (resp : http.Response)
    (body : String)
    (hNew : NewRequest "GET" uri = .ok req)
    (hDo : api.getHTTPClient.Do (addAuthHeader (req.HeaderSet "Content-Type" "application/json") api)
      = .ok resp)
    (hBody : resp.Body = .ok body) :
    (200 ≤ resp.StatusCode → resp.StatusCode < 300 →
      (0 < len body → ∀ v, unmarshalCE body = .ok v →
        (getEvent NewRequest unmarshalCE unmarshalError uri api).outcome
          = Outcome.ret (some v) none) ∧
      (len body = 0 →
        (getEvent NewRequest unmarshalCE unmarshalError uri api).outcome
          = Outcome.ret none none) ∧
      (uri = api.Scheme ++ "://" ++ api.getBaseURL ++ "/v1/metadata" →
        (0 < len body → ∀ v, unmarshalMD body = .ok v →
          (api.GetMetadata NewRequest unmarshalMD unmarshalError).outcome
            = Outcome.ret (some v) none) ∧
        (len body = 0 →
          (api.GetMetadata NewRequest unmarshalMD unmarshalError).outcome
            = Outcome.ret none none))) ∧
    (resp.StatusCode = 199 ∨ resp.StatusCode = 300 →
      (∃ e, (getEvent NewRequest unmarshalCE unmarshalError uri api).outcome
          = Outcome.ret none (some e)) ∧
      (uri = api.Scheme ++ "://" ++ api.getBaseURL ++ "/v1/metadata" →
        ∃ e, (api.GetMetadata NewRequest unmarshalMD unmarshalError).outcome
          = Outcome.ret none (some e))) := by
  have hE := getEvent_run NewRequest unmarshalCE unmarshalError uri api req resp hNew hDo
  refine ⟨fun h1 h2 => ⟨?_, ?_, ?_⟩, fun h => ⟨?_, ?_⟩⟩
  · intro hl v hv
    rw [hE]
    simp [hBody, h1, h2, hl, hv]
  · intro hl
    rw [hE]
    simp [hBody, h1, h2, hl]
  · intro hu
    subst hu
    have hM := GetMetadata_run NewRequest unmarshalMD unmarshalError api req resp hNew hDo
    refine ⟨?_, ?_⟩
    · intro hl v hv
      rw [hM]
      simp [hBody, h1, h2, hl, hv]
    · intro hl
      rw [hM]
      simp [hBody, h1, h2, hl]
  · rw [hE]
    have hs : ¬ (resp.StatusCode ≥ 200 ∧ resp.StatusCode < 300) := by omega
    simp only [hBody, hs, if_false]
    cases unmarshalError body <;> simp
  · intro hu
    subst hu
    have hM := GetMetadata_run NewRequest unmarshalMD unmarshalError api req resp hNew hDo
    rw [hM]
    have hs : ¬ (resp.StatusCode ≥ 200 ∧ resp.StatusCode < 300) := by omega
    simp only [hBody, hs, if_false]
    cases unmarshalError body <;> simp

/-- The scenarios of C1: status 200 with the body of an object, status 299 with an empty
body (the metadata scenario of the spec at the upper end of the range), and the statuses
199 and 300, which leave the success path. -/
theorem getEvent_GetMetadata_success_witness :
    (getEvent Scenario.NewRequest Scenario.unmarshalMessage Scenario.unmarshalError
        "http://localhost/v1/metadata"
        (Scenario.handler (Scenario.server 200 "\x7b\"message\":\"up\"\x7d"))).outcome
      = Outcome.ret (some (some "up")) none ∧
    ((Scenario.handler (Scenario.server 299 "")).GetMetadata Scenario.NewRequest
        Scenario.unmarshalMessage Scenario.unmarshalError).outcome
      = Outcome.ret none none ∧
    (∃ e, ((Scenario.handler (Scenario.server 199 "")).GetMetadata Scenario.NewRequest
        Scenario.unmarshalMessage Scenario.unmarshalError).outcome
      = Outcome.ret none (some e)) ∧
    (∃ e, (getEvent Scenario.NewRequest Scenario.unmarshalMessage Scenario.unmarshalError
        "http://localhost/v1/metadata"
        (Scenario.handler (Scenario.server 300 "\x7b\"message\":\"up\"\x7d"))).outcome
      = Outcome.ret none (some e)) :=
  ⟨((getEvent_GetMetadata_success Scenario.NewRequest Scenario.unmarshalMessage
        Scenario.unmarshalMessage Scenario.unmarshalError "http://localhost/v1/metadata"
        (Scenario.handler (Scenario.server 200 "\x7b\"message\":\"up\"\x7d"))
        (http.Request.mk "GET" "http://localhost/v1/metadata" [])
        (http.Response.mk 200 (.ok "\x7b\"message\":\"up\"\x7d"))
        "\x7b\"message\":\"up\"\x7d" (by decide) rfl rfl).1 (by decide) (by decide)).1
      (by decide) (some "up") (by decide),
    ((((getEvent_GetMetadata_success Scenario.NewRequest Scenario.unmarshalMessage
        Scenario.unmarshalMessage Scenario.unmarshalError "http://localhost/v1/metadata"
        (Scenario.handler (Scenario.server 299 ""))
        (http.Request.mk "GET" "http://localhost/v1/metadata" [])
        (http.Response.mk 299 (.ok "")) "" (by decide) rfl rfl).1
        (by decide) (by decide)).2.2 (by decide)).2 (by decide)),
    ((getEvent_GetMetadata_success Scenario.NewRequest Scenario.unmarshalMessage
        Scenario.unmarshalMessage Scenario.unmarshalError "http://localhost/v1/metadata"
        (Scenario.handler (Scenario.server 199 ""))
        (http.Request.mk "GET" "http://localhost/v1/metadata" [])
        (http.Response.mk 199 (.ok "")) "" (by decide) rfl rfl).2
        (Or.inl rfl)).2 (by decide),
    ((getEvent_GetMetadata_success Scenario.NewRequest Scenario.unmarshalMessage
        Scenario.unmarshalMessage Scenario.unmarshalError "http://localhost/v1/metadata"
        (Scenario.handler (Scenario.server 300 "\x7b\"message\":\"up\"\x7d"))
        (http.Request.mk "GET" "http://localhost/v1/metadata" [])
        (http.Response.mk 300 (.ok "\x7b\"message\":\"up\"\x7d"))
        "\x7b\"message\":\"up\"\x7d" (by decide) rfl rfl).2
        (Or.inr rfl)).1⟩

/-! ## The failure path -/

/-- C2: when the client returns a response with a status code outside [200,300) whose body
reads as `body`, `getEvent` and `GetMetadata` return a nil result; the error is the decoded
`models.Error` if the body decodes as one (so its message is the decoded message), and
otherwise a non-nil error whose message is, hence contains, the text of the decode
failure. -/
theorem getEvent_GetMetadata_failure {CE MD : Type}
    (NewRequest : String → String → Except String http.Request)
    (unmarshalCE : String → Except String CE) (unmarshalMD : String → Except String MD)
    (unmarshalError : String → Except String models.Error)
    (uri : String) (api : APIHandler) (req : http.Request) (resp : http.Response)
    (body : String)
    (hNew : NewRequest "GET" uri = .ok req)
    (hDo : api.getHTTPClient.Do (addAuthHeader (req.HeaderSet "Content-Type" "application/json") api)
      = .ok resp)
    (hBody : resp.Body = .ok body)
    (hStatus : ¬ (200 ≤ resp.StatusCode ∧ resp.StatusCode < 300)) :
    ((∀ e, unmarshalError body = .ok e →
        ∃ err, (getEvent NewRequest unmarshalCE unmarshalError uri api).outcome
            = Outcome.ret none (some err) ∧ err = e ∧ err.Message = e.Message) ∧
      (∀ d, unmarshalError body = .error d →
        ∃ err, (getEvent NewRequest unmarshalCE unmarshalError uri api).outcome
            = Outcome.ret none (some err) ∧ err.Message = some d ∧
          ∃ m, err.Message = some m ∧ d.data <:+: m.data)) ∧
    (uri = api.Scheme ++ "://" ++ api.getBaseURL ++ "/v1/metadata" →
      (∀ e, unmarshalError body = .ok e →
        ∃ err, (api.GetMetadata NewRequest unmarshalMD unmarshalError).outcome
            = Outcome.ret none (some err) ∧ err = e ∧ err.Message = e.Message) ∧
      (∀ d, unmarshalError body = .error d →
        ∃ err, (api.GetMetadata NewRequest unmarshalMD unmarshalError).outcome
            = Outcome.ret none (some err) ∧ err.Message = some d ∧
          ∃ m, err.Message = some m ∧ d.data <:+: m.data)) := by
  have hE := getEvent_run NewRequest unmarshalCE unmarshalError uri api req resp hNew hDo
  have hs : ¬ (resp.StatusCode ≥ 200 ∧ resp.StatusCode < 300) := by omega
  refine ⟨⟨?_, ?_⟩, fun hu => ?_⟩
  · intro e he
    refine ⟨e, ?_, rfl, rfl⟩
    rw [hE]
    simp only [hBody, hs, if_false, he]
  · intro d hd
    refine ⟨buildErrorResponse d, ?_, rfl, d, rfl, List.infix_refl _⟩
    rw [hE]
    simp only [hBody, hs, if_false, hd]
  · subst hu
    have hM := GetMetadata_run NewRequest unmarshalMD unmarshalError api req resp hNew hDo
    refine ⟨?_, ?_⟩
    · intro e he
      refine ⟨e, ?_, rfl, rfl⟩
      rw [hM]
      simp only [hBody, hs, if_false, he]
    · intro d hd
      refine ⟨buildErrorResponse d, ?_, rfl, d, rfl, List.infix_refl _⟩
      rw [hM]
      simp only [hBody, hs, if_false, hd]

/-- The scenario of C2: status 400 with the body of an error object gives that message,
and status 500 with an empty body gives the message of the decode failure. -/
theorem getEvent_GetMetadata_failure_witness :
    (∃ err, (getEvent Scenario.NewRequest Scenario.unmarshalMessage Scenario.unmarshalError
          "http://localhost/v1/metadata"
          (Scenario.handler
            (Scenario.server 400 "\x7b\"message\":\"invalid service name\"\x7d"))).outcome
        = Outcome.ret none (some err) ∧ err.Message = some "invalid service name") ∧
    (∃ err, ((Scenario.handler (Scenario.server 500 "")).GetMetadata Scenario.NewRequest
          Scenario.unmarshalMessage Scenario.unmarshalError).outcome
        = Outcome.ret none (some err) ∧ err.Message = some "unexpected end of JSON input") := by
  refine ⟨?_, ?_⟩
  · obtain ⟨err, h1, h2, _⟩ :=
      (getEvent_GetMetadata_failure Scenario.NewRequest Scenario.unmarshalMessage
        Scenario.unmarshalMessage Scenario.unmarshalError "http://localhost/v1/metadata"
        (Scenario.handler
          (Scenario.server 400 "\x7b\"message\":\"invalid service name\"\x7d"))
        (http.Request.mk "GET" "http://localhost/v1/metadata" [])
        (http.Response.mk 400 (.ok "\x7b\"message\":\"invalid service name\"\x7d"))
        "\x7b\"message\":\"invalid service name\"\x7d" (by decide) rfl rfl (by decide)).1.1
        (models.Error.mk (some "invalid service name")) (by decide)
    exact ⟨err, h1, by rw [h2]⟩
  · obtain ⟨err, h1, h2, _⟩ :=
      ((getEvent_GetMetadata_failure Scenario.NewRequest Scenario.unmarshalMessage
        Scenario.unmarshalMessage Scenario.unmarshalError "http://localhost/v1/metadata"
        (Scenario.handler (Scenario.server 500 ""))
        (http.Request.mk "GET" "http://localhost/v1/metadata" [])
        (http.Response.mk 500 (.ok "")) "" (by decide) rfl rfl (by decide)).2 (by decide)).2
        "unexpected end of JSON input" (by decide)
    exact ⟨err, h1, h2⟩

theorem GetMetadata_eq_getEvent {MD : Type}
    (NewRequest : String → String → Except String http.Request)
    (unmarshalMD : String → Except String MD)
    (unmarshalError : String → Except String models.Error) (a : APIHandler) :
    a.GetMetadata NewRequest unmarshalMD unmarshalError
      = getEvent NewRequest unmarshalMD unmarshalError
          (a.Scheme ++ "://" ++ a.getBaseURL ++ "/v1/metadata") a := rfl

theorem getEvent_exclusive {α : Type}
    (NewRequest : String → String → Except String http.Request)
    (unmarshal : String → Except String α)
    (unmarshalError : String → Except String models.Error)
    (uri : String) (api : APIHandler) (result : Option α) (err : Option models.Error)
    (h : (getEvent NewRequest unmarshal unmarshalError uri api).outcome = Outcome.ret result err) :
    ¬ (result ≠ none ∧ err ≠ none) ∧
    ((result = none ∧ err = none) ↔
      ∃ req resp body, NewRequest "GET" uri = .ok req ∧
        api.getHTTPClient.Do
          (addAuthHeader (req.HeaderSet "Content-Type" "application/json") api) = .ok resp ∧
        resp.Body = .ok body ∧ 200 ≤ resp.StatusCode ∧ resp.StatusCode < 300 ∧
        len body = 0) := by
  rcases hN : NewRequest "GET" uri with e | req
  · simp [getEvent, hN, Run.pure] at h
  rcases hD : api.getHTTPClient.Do
      (addAuthHeader (req.HeaderSet "Content-Type" "application/json") api) with e | resp
  · simp only [getEvent, hN, hD, Run.pure, Outcome.ret.injEq] at h
    obtain ⟨rfl, rfl⟩ := h
    refine ⟨by simp, fun h => by simp at h, ?_⟩
    rintro ⟨req1, resp1, body1, hN1, hD1, -⟩
    cases hN1
    rw [hD] at hD1
    cases hD1
  rw [getEvent_run NewRequest unmarshal unmarshalError uri api req resp hN hD] at h
  have hex : (∃ req1 resp1 body1,
        (Except.ok req : Except String http.Request) = Except.ok req1 ∧
        api.getHTTPClient.Do
          (addAuthHeader (req1.HeaderSet "Content-Type" "application/json") api)
            = .ok resp1 ∧
        resp1.Body = .ok body1 ∧ 200 ≤ resp1.StatusCode ∧ resp1.StatusCode < 300 ∧
        len body1 = 0) ↔
      (∃ body, resp.Body = .ok body ∧ 200 ≤ resp.StatusCode ∧ resp.StatusCode < 300 ∧
        len body = 0) := by
    constructor
    · rintro ⟨req1, resp1, body1, hN1, hD1, hB1, h1, h2, h3⟩
      cases hN1
      rw [hD] at hD1
      cases hD1
      exact ⟨body1, hB1, h1, h2, h3⟩
    · rintro ⟨body, hB, h1, h2, h3⟩
      exact ⟨req, resp, body, rfl, hD, hB, h1, h2, h3⟩
  rw [hex]
  rcases hB : resp.Body with e | body
  · simp only [hB, Outcome.ret.injEq] at h
    obtain ⟨rfl, rfl⟩ := h
    simp
  simp only [hB] at h
  by_cases hs : resp.StatusCode ≥ 200 ∧ resp.StatusCode < 300
  · by_cases hl : len body > 0
    · simp only [hs, hl, and_self, if_true] at h
      have hl0 : len body ≠ 0 := by omega
      rcases hU : unmarshal body with e | v
      · simp only [hU, Outcome.ret.injEq] at h
        obtain ⟨rfl, rfl⟩ := h
        simp [hl0]
      · simp only [hU, Outcome.ret.injEq] at h
        obtain ⟨rfl, rfl⟩ := h
        simp [hl0]
    · simp only [hs, hl, and_self, if_true, if_false, Outcome.ret.injEq] at h
      obtain ⟨rfl, rfl⟩ := h
      have hl0 : len body = 0 := by omega
      simp only [ne_eq, not_true_eq_false, and_self, not_false_eq_true, true_and, true_iff]
      exact ⟨body, rfl, hs.1, hs.2, hl0⟩
  · simp only [hs, if_false] at h
    have hs2 : ∀ b : String, ¬ (200 ≤ resp.StatusCode ∧ resp.StatusCode < 300 ∧ len b = 0) :=
      fun b hb => hs ⟨hb.1, hb.2.1⟩
    rcases hU : unmarshalError body with e | v
    · simp only [hU, Outcome.ret.injEq] at h
      obtain ⟨rfl, rfl⟩ := h
      simp [hs2]
    · simp only [hU, Outcome.ret.injEq] at h
      obtain ⟨rfl, rfl⟩ := h
      simp [hs2]

/-! ## The result and the error -/

/-- C3, as stated, fails: `GetMetadata` on a 200 response with an empty body returns a nil
result together with a nil error. -/
theorem GetMetadata_empty_body_both_nil :
    ((Scenario.handler (Scenario.server 200 "")).GetMetadata Scenario.NewRequest
        Scenario.unmarshalMessage Scenario.unmarshalError).outcome
      = Outcome.ret none none ∧
    ¬ ExactlyOne (none : Option (Option String)) none := by
  refine ⟨by decide, ?_⟩
  simp [ExactlyOne]

/-- C3, amended: `DeleteProject` and `DeleteService` return exactly one of a non-nil result
and a non-nil error, whatever the delete primitive yields. `getEvent` and `GetMetadata`,
whenever they return, never return both a result and an error, and they return neither
exactly when the client returned a response with a status code in [200,300) and an empty
body. -/
theorem result_error_exclusive {CE MD R : Type}
    (NewRequest : String → String → Except String http.Request)
    (unmarshalCE : String → Except String CE) (unmarshalMD : String → Except String MD)
    (unmarshalError : String → Except String models.Error)
    (delete : String → APIHandler → String × Option models.Error)
    (unmarshalR : String → Except String R)
    (uri : String) (api : APIHandler) (project : models.Project) (projectName service : String) :
    ExactlyOne (api.DeleteProject delete unmarshalR project).1
      (api.DeleteProject delete unmarshalR project).2 ∧
    ExactlyOne (api.DeleteService delete unmarshalR projectName service).1
      (api.DeleteService delete unmarshalR projectName service).2 ∧
    (∀ result err,
      (getEvent NewRequest unmarshalCE unmarshalError uri api).outcome = Outcome.ret result err →
      ¬ (result ≠ none ∧ err ≠ none) ∧
      ((result = none ∧ err = none) ↔
        ∃ req resp body, NewRequest "GET" uri = .ok req ∧
          api.getHTTPClient.Do
            (addAuthHeader (req.HeaderSet "Content-Type" "application/json") api) = .ok resp ∧
          resp.Body = .ok body ∧ 200 ≤ resp.StatusCode ∧ resp.StatusCode < 300 ∧
          len body = 0)) ∧
    (∀ result err,
      (api.GetMetadata NewRequest unmarshalMD unmarshalError).outcome = Outcome.ret result err →
      ¬ (result ≠ none ∧ err ≠ none) ∧
      ((result = none ∧ err = none) ↔
        ∃ req resp body,
          NewRequest "GET" (api.Scheme ++ "://" ++ api.getBaseURL ++ "/v1/metadata") = .ok req ∧
          api.getHTTPClient.Do
            (addAuthHeader (req.HeaderSet "Content-Type" "application/json") api) = .ok resp ∧
          resp.Body = .ok body ∧ 200 ≤ resp.StatusCode ∧ resp.StatusCode < 300 ∧
          len body = 0)) := by
  refine ⟨?_, ?_, ?_, ?_⟩
  · unfold APIHandler.DeleteProject ExactlyOne
    rcases hd : delete (api.Scheme ++ "://" ++ api.getBaseURL
        ++ "/shipyard-controller/v1/project/" ++ project.ProjectName) api with ⟨resp, _ | e⟩
    · rcases hu : unmarshalR resp with d | r <;> simp [hu]
    · simp
  · unfold APIHandler.DeleteService ExactlyOne
    rcases hd : delete (api.Scheme ++ "://" ++ api.getBaseURL
        ++ "/shipyard-controller/v1/project/" ++ projectName ++ "/service/" ++ service) api
      with ⟨resp, _ | e⟩
    · rcases hu : unmarshalR resp with d | r <;> simp [hu]
    · simp
  · intro result err h
    exact getEvent_exclusive NewRequest unmarshalCE unmarshalError uri api result err h
  · intro result err h
    rw [GetMetadata_eq_getEvent] at h
    exact getEvent_exclusive NewRequest unmarshalMD unmarshalError _ api result err h

/-- The amended C3 on the scenarios: deleting against an empty body yields exactly one of
result and error, and a 404 whose body is an error object yields no result together with
an error, never both and never neither. -/
theorem result_error_exclusive_witness :
    ExactlyOne
      ((Scenario.handler (Scenario.server 200 "")).DeleteProject (Scenario.deleteOK "")
        Scenario.unmarshalDeleteResponse (models.Project.mk "p1")).1
      ((Scenario.handler (Scenario.server 200 "")).DeleteProject (Scenario.deleteOK "")
        Scenario.unmarshalDeleteResponse (models.Project.mk "p1")).2 ∧
    ¬ ((none : Option (Option String)) ≠ none ∧
        some (models.Error.mk (some "not found")) ≠ none) :=
  ⟨(result_error_exclusive Scenario.NewRequest Scenario.unmarshalMessage
      Scenario.unmarshalMessage Scenario.unmarshalError (Scenario.deleteOK "")
      Scenario.unmarshalDeleteResponse "http://localhost/v1/metadata"
      (Scenario.handler (Scenario.server 200 "")) (models.Project.mk "p1") "p1" "s1").1,
   ((result_error_exclusive Scenario.NewRequest Scenario.unmarshalMessage
      Scenario.unmarshalMessage Scenario.unmarshalError (Scenario.deleteOK "")
      Scenario.unmarshalDeleteResponse "http://localhost/v1/metadata"
      (Scenario.handler (Scenario.server 404 "\x7b\"message\":\"not found\"\x7d"))
      (models.Project.mk "p1") "p1" "s1").2.2.2
      none (some (models.Error.mk (some "not found"))) (by decide)).1⟩

/-! ## The response body -/

/-- C9: whenever the client returns a response, `getEvent` and `GetMetadata` read its body
and then close it exactly once, as the last operation before returning, whatever the status
code, the outcome of the read and the outcome of the decoding; when the client returns an
error instead there is no body, and nothing is read or closed. -/
theorem response_body_closed_once {CE MD : Type}
    (NewRequest : String → String → Except String http.Request)
    (unmarshalCE : String → Except String CE) (unmarshalMD : String → Except String MD)
    (unmarshalError : String → Except String models.Error)
    (uri : String) (api : APIHandler) (req : http.Request)
    (hNew : NewRequest "GET" uri = .ok req) :
    (∀ resp, api.getHTTPClient.Do
        (addAuthHeader (req.HeaderSet "Content-Type" "application/json") api) = .ok resp →
      ((getEvent NewRequest unmarshalCE unmarshalError uri api).bodyOps.count BodyOp.Close = 1 ∧
        (getEvent NewRequest unmarshalCE unmarshalError uri api).bodyOps
          = [BodyOp.ReadAll, BodyOp.Close]) ∧
      (uri = api.Scheme ++ "://" ++ api.getBaseURL ++ "/v1/metadata" →
        (api.GetMetadata NewRequest unmarshalMD unmarshalError).bodyOps.count BodyOp.Close = 1 ∧
        (api.GetMetadata NewRequest unmarshalMD unmarshalError).bodyOps
          = [BodyOp.ReadAll, BodyOp.Close])) ∧
    (∀ e, api.getHTTPClient.Do
        (addAuthHeader (req.HeaderSet "Content-Type" "application/json") api) = .error e →
      (getEvent NewRequest unmarshalCE unmarshalError uri api).bodyOps = [] ∧
      (uri = api.Scheme ++ "://" ++ api.getBaseURL ++ "/v1/metadata" →
        (api.GetMetadata NewRequest unmarshalMD unmarshalError).bodyOps = [])) := by
  refine ⟨fun resp hDo => ⟨?_, fun hu => ?_⟩, fun e hDo => ⟨?_, fun hu => ?_⟩⟩
  · rw [getEvent_run NewRequest unmarshalCE unmarshalError uri api req resp hNew hDo]
    exact ⟨by simp, rfl⟩
  · subst hu
    rw [GetMetadata_run NewRequest unmarshalMD unmarshalError api req resp hNew hDo]
    exact ⟨by simp, rfl⟩
  · simp only [getEvent, hNew, hDo, Run.pure]
  · subst hu
    simp only [APIHandler.GetMetadata, hNew, hDo, Run.pure]

/-- The branches of C9 on concrete servers: 2xx with a body, 2xx with an empty body, a
status outside 2xx, a body that cannot be read and a body that does not decode. -/
theorem response_body_closed_once_witness :
    (getEvent Scenario.NewRequest Scenario.unmarshalMessage Scenario.unmarshalError
        "http://localhost/v1/metadata"
        (Scenario.handler (Scenario.server 200 "\x7b\"message\":\"up\"\x7d"))).bodyOps.count
      BodyOp.Close = 1 ∧
    ((Scenario.handler (Scenario.server 200 "")).GetMetadata Scenario.NewRequest
        Scenario.unmarshalMessage Scenario.unmarshalError).bodyOps.count BodyOp.Close = 1 ∧
    ((Scenario.handler (Scenario.server 503 "")).GetMetadata Scenario.NewRequest
        Scenario.unmarshalMessage Scenario.unmarshalError).bodyOps.count BodyOp.Close = 1 ∧
    ((Scenario.handler (http.Client.mk (fun _ => .ok (http.Response.mk 200
          (.error "unexpected EOF"))))).GetMetadata Scenario.NewRequest
        Scenario.unmarshalMessage Scenario.unmarshalError).bodyOps.count BodyOp.Close = 1 ∧
    ((Scenario.handler (Scenario.server 200 "no json")).GetMetadata Scenario.NewRequest
        Scenario.unmarshalMessage Scenario.unmarshalError).bodyOps.count BodyOp.Close = 1 :=
  ⟨(((response_body_closed_once Scenario.NewRequest Scenario.unmarshalMessage
        Scenario.unmarshalMessage Scenario.unmarshalError "http://localhost/v1/metadata"
        (Scenario.handler (Scenario.server 200 "\x7b\"message\":\"up\"\x7d"))
        (http.Request.mk "GET" "http://localhost/v1/metadata" []) (by decide)).1
        (http.Response.mk 200 (.ok "\x7b\"message\":\"up\"\x7d")) rfl).1).1,
    ((((response_body_closed_once Scenario.NewRequest Scenario.unmarshalMessage
        Scenario.unmarshalMessage Scenario.unmarshalError "http://localhost/v1/metadata"
        (Scenario.handler (Scenario.server 200 ""))
        (http.Request.mk "GET" "http://localhost/v1/metadata" []) (by decide)).1
        (http.Response.mk 200 (.ok "")) rfl).2) (by decide)).1,
    ((((response_body_closed_once Scenario.NewRequest Scenario.unmarshalMessage
        Scenario.unmarshalMessage Scenario.unmarshalError "http://localhost/v1/metadata"
        (Scenario.handler (Scenario.server 503 ""))
        (http.Request.mk "GET" "http://localhost/v1/metadata" []) (by decide)).1
        (http.Response.mk 503 (.ok "")) rfl).2) (by decide)).1,
    ((((response_body_closed_once Scenario.NewRequest Scenario.unmarshalMessage
        Scenario.unmarshalMessage Scenario.unmarshalError "http://localhost/v1/metadata"
        (Scenario.handler (http.Client.mk (fun _ => .ok (http.Response.mk 200
          (.error "unexpected EOF")))))
        (http.Request.mk "GET" "http://localhost/v1/metadata" []) (by decide)).1
        (http.Response.mk 200 (.error "unexpected EOF")) rfl).2) (by decide)).1,
    ((((response_body_closed_once Scenario.NewRequest Scenario.unmarshalMessage
        Scenario.unmarshalMessage Scenario.unmarshalError "http://localhost/v1/metadata"
        (Scenario.handler (Scenario.server 200 "no json"))
        (http.Request.mk "GET" "http://localhost/v1/metadata" []) (by decide)).1
        (http.Response.mk 200 (.ok "no json")) rfl).2) (by decide)).1⟩

/-! ## Local failures -/

/-- C5 at the failing inputs: when `http.NewRequest` fails (here on a control character in
the URL, from the event context or from the base URL), `GetEvent` and `GetMetadata` do not
return an error: they dereference the nil request. -/
theorem request_construction_failure_aborts :
    ((Scenario.handler (Scenario.server 200 "")).GetEvent Scenario.NewRequest
        Scenario.unmarshalMessage Scenario.unmarshalError "ctx\n" "sh.keptn.events.problem").outcome
      = Outcome.nilDereference ∧
    ((APIHandler.mk "local\nhost" "" "" (Scenario.server 200 "") "http").GetMetadata
        Scenario.NewRequest Scenario.unmarshalMessage Scenario.unmarshalError).outcome
      = Outcome.nilDereference := by
  decide

/-! ## `DeleteProject` and `DeleteService` -/

/-- C4 at the failing input: when the delete primitive succeeds with an empty body,
`DeleteProject` and `DeleteService` do not return (nil, nil), as `getEvent` and
`GetMetadata` do on an empty body: they hand the empty body to the JSON decoder, which
rejects it, and report the successful delete as a decode error. -/
theorem Delete_empty_body_is_an_error :
    (Scenario.handler (Scenario.server 200 "")).DeleteProject (Scenario.deleteOK "")
        Scenario.unmarshalDeleteResponse (models.Project.mk "p1")
      = (none, some (models.Error.mk
          (some "Could not decode DeleteProjectResponse: unexpected end of JSON input"))) ∧
    (Scenario.handler (Scenario.server 200 "")).DeleteService (Scenario.deleteOK "")
        Scenario.unmarshalDeleteResponse "p1" "s1"
      = (none, some (models.Error.mk
          (some "Could not decode DeleteServiceResponse: unexpected end of JSON input"))) ∧
    ¬ ((Scenario.handler (Scenario.server 200 "")).DeleteProject (Scenario.deleteOK "")
        Scenario.unmarshalDeleteResponse (models.Project.mk "p1") = (none, none)) := by
  decide

/-- C6: `DeleteProject` and `DeleteService` return (nil, e) when the delete primitive
returns the error e; when it succeeds and the body decodes they return the decoded response
with a nil error; when it succeeds and the body does not decode they return a nil result
and the error whose message is "Could not decode DeleteProjectResponse: " (resp.
"Could not decode DeleteServiceResponse: ") followed by the message of the decode
failure. -/
theorem Delete_outcomes {R : Type}
    (delete : String → APIHandler → String × Option models.Error)
    (unmarshal : String → Except String R)
    (a : APIHandler) (project : models.Project) (projectName service : String) :
    ((∀ resp e, delete (a.Scheme ++ "://" ++ a.getBaseURL ++ "/shipyard-controller/v1/project/"
          ++ project.ProjectName) a = (resp, some e) →
        a.DeleteProject delete unmarshal project = (none, some e)) ∧
      (∀ resp r, delete (a.Scheme ++ "://" ++ a.getBaseURL ++ "/shipyard-controller/v1/project/"
          ++ project.ProjectName) a = (resp, none) → unmarshal resp = .ok r →
        a.DeleteProject delete unmarshal project = (some r, none)) ∧
      (∀ resp d, delete (a.Scheme ++ "://" ++ a.getBaseURL ++ "/shipyard-controller/v1/project/"
          ++ project.ProjectName) a = (resp, none) → unmarshal resp = .error d →
        a.DeleteProject delete unmarshal project
          = (none, some (models.Error.mk
              (some ("Could not decode DeleteProjectResponse: " ++ d)))))) ∧
    ((∀ resp e, delete (a.Scheme ++ "://" ++ a.getBaseURL ++ "/shipyard-controller/v1/project/"
          ++ projectName ++ "/service/" ++ service) a = (resp, some e) →
        a.DeleteService delete unmarshal projectName service = (none, some e)) ∧
      (∀ resp r, delete (a.Scheme ++ "://" ++ a.getBaseURL ++ "/shipyard-controller/v1/project/"
          ++ projectName ++ "/service/" ++ service) a = (resp, none) → unmarshal resp = .ok r →
        a.DeleteService delete unmarshal projectName service = (some r, none)) ∧
      (∀ resp d, delete (a.Scheme ++ "://" ++ a.getBaseURL ++ "/shipyard-controller/v1/project/"
          ++ projectName ++ "/service/" ++ service) a = (resp, none) → unmarshal resp = .error d →
        a.DeleteService delete unmarshal projectName service
          = (none, some (models.Error.mk
              (some ("Could not decode DeleteServiceResponse: " ++ d)))))) := by
  unfold APIHandler.DeleteProject APIHandler.DeleteService
  refine ⟨⟨?_, ?_, ?_⟩, ?_, ?_, ?_⟩
  · intro resp e h
    rw [h]
  · intro resp r h hu
    rw [h]
    simp [hu]
  · intro resp d h hu
    rw [h]
    simp [hu]
  · intro resp e h
    rw [h]
  · intro resp r h hu
    rw [h]
    simp [hu]
  · intro resp d h hu
    rw [h]
    simp [hu]

/-- The scenario of C6: deleting the project p1 against a body with the message
"p1 deleted" yields a response with that message and a nil error; a transport error is
handed on unchanged. -/
theorem Delete_outcomes_witness :
    (Scenario.handler (Scenario.server 200 "")).DeleteProject
        (Scenario.deleteOK "\x7b\"message\":\"p1 deleted\"\x7d")
        Scenario.unmarshalDeleteResponse (models.Project.mk "p1")
      = (some (Scenario.DeleteResponse.mk "p1 deleted"), none) ∧
    (Scenario.handler (Scenario.server 200 "")).DeleteService
        (fun _ _ => ("", some (models.Error.mk (some "service not found"))))
        Scenario.unmarshalDeleteResponse "p1" "s1"
      = (none, some (models.Error.mk (some "service not found"))) :=
  ⟨(Delete_outcomes (Scenario.deleteOK "\x7b\"message\":\"p1 deleted\"\x7d")
      Scenario.unmarshalDeleteResponse (Scenario.handler (Scenario.server 200 ""))
      (models.Project.mk "p1") "p1" "s1").1.2.1 _ _ rfl (by decide),
   (Delete_outcomes (fun _ _ => ("", some (models.Error.mk (some "service not found"))))
      Scenario.unmarshalDeleteResponse (Scenario.handler (Scenario.server 200 ""))
      (models.Project.mk "p1") "p1" "s1").2.1 _ _ rfl⟩

/-! ## `NewAuthenticatedAPIHandler` -/

theorem strings.HasPrefix_append (pre r : String) : strings.HasPrefix (pre ++ r) pre = true := by
  simp [strings.HasPrefix, String.data_append]

theorem strings.TrimPrefix_append (pre r : String) : strings.TrimPrefix (pre ++ r) pre = r := by
  simp [strings.TrimPrefix, strings.HasPrefix_append, String.data_append]

theorem strings.TrimPrefix_of_not (s pre : String) (h : strings.HasPrefix s pre = false) :
    strings.TrimPrefix s pre = s := by
  simp [strings.TrimPrefix, h]

theorem strings.https_not_http (r : String) :
    strings.HasPrefix ("https://" ++ r) "http://" = false := by
  simp [strings.HasPrefix, String.data_append, List.isPrefixOf]

/-- C7, as stated, fails: a base URL with a repeated scheme keeps one of them. -/
theorem BaseURL_keeps_second_scheme :
    strings.HasPrefix
      (NewAuthenticatedAPIHandler (Scenario.server 200 "").Transport (Scenario.server 200 "")
        "http://http://keptn.example" "token" "x-token" none "http").BaseURL "http://" = true ∧
    strings.HasPrefix
      (NewAuthenticatedAPIHandler (Scenario.server 200 "").Transport (Scenario.server 200 "")
        "https://https://keptn.example" "token" "x-token" none "https").BaseURL "https://"
      = true := by
  decide

/-- C7, amended: the stored BaseURL is the base URL with one leading "http://" removed, if
there is one, and then one leading "https://" removed, if there is one. It equals the base
URL when that begins with neither, and when the base URL is "http://" or "https://"
followed by a remainder that begins with neither, it is that remainder, which begins with
neither. -/
theorem NewAuthenticatedAPIHandler_BaseURL (getClientTransport : http.RoundTripper)
    (defaultClient : http.Client) (baseURL authToken authHeader : String)
    (httpClient : Option http.Client) (scheme : String) :
    (NewAuthenticatedAPIHandler getClientTransport defaultClient baseURL authToken authHeader
        httpClient scheme).BaseURL
      = strings.TrimPrefix (strings.TrimPrefix baseURL "http://") "https://" ∧
    (strings.HasPrefix baseURL "http://" = false → strings.HasPrefix baseURL "https://" = false →
      (NewAuthenticatedAPIHandler getClientTransport defaultClient baseURL authToken authHeader
        httpClient scheme).BaseURL = baseURL) ∧
    (∀ r, strings.HasPrefix r "http://" = false → strings.HasPrefix r "https://" = false →
      baseURL = "http://" ++ r ∨ baseURL = "https://" ++ r →
      (NewAuthenticatedAPIHandler getClientTransport defaultClient baseURL authToken authHeader
        httpClient scheme).BaseURL = r ∧
      strings.HasPrefix (NewAuthenticatedAPIHandler getClientTransport defaultClient baseURL
        authToken authHeader httpClient scheme).BaseURL "http://" = false ∧
      strings.HasPrefix (NewAuthenticatedAPIHandler getClientTransport defaultClient baseURL
        authToken authHeader httpClient scheme).BaseURL "https://" = false) := by
  have hdef : (NewAuthenticatedAPIHandler getClientTransport defaultClient baseURL authToken
      authHeader httpClient scheme).BaseURL
        = strings.TrimPrefix (strings.TrimPrefix baseURL "http://") "https://" := rfl
  refine ⟨hdef, fun h1 h2 => ?_, fun r h1 h2 h => ?_⟩
  · rw [hdef, strings.TrimPrefix_of_not _ _ h1, strings.TrimPrefix_of_not _ _ h2]
  · have hr : (NewAuthenticatedAPIHandler getClientTransport defaultClient baseURL authToken
        authHeader httpClient scheme).BaseURL = r := by
      rw [hdef]
      rcases h with h | h
      · rw [h, strings.TrimPrefix_append, strings.TrimPrefix_of_not _ _ h2]
      · rw [h, strings.TrimPrefix_of_not _ _ (strings.https_not_http r),
          strings.TrimPrefix_append]
    rw [hr]
    exact ⟨rfl, h1, h2⟩

/-- The amended C7 on concrete base URLs: a plain host is kept, and one scheme is
stripped. -/
theorem NewAuthenticatedAPIHandler_BaseURL_witness :
    (NewAuthenticatedAPIHandler (Scenario.server 200 "").Transport (Scenario.server 200 "")
      "keptn.example/api" "token" "x-token" none "http").BaseURL = "keptn.example/api" ∧
    (NewAuthenticatedAPIHandler (Scenario.server 200 "").Transport (Scenario.server 200 "")
      "https://keptn.example/api" "token" "x-token" none "https").BaseURL
      = "keptn.example/api" :=
  ⟨(NewAuthenticatedAPIHandler_BaseURL (Scenario.server 200 "").Transport
      (Scenario.server 200 "") "keptn.example/api" "token" "x-token" none "http").2.1
      (by decide) (by decide),
   ((NewAuthenticatedAPIHandler_BaseURL (Scenario.server 200 "").Transport
      (Scenario.server 200 "") "https://keptn.example/api" "token" "x-token" none "https").2.2
      "keptn.example/api" (by decide) (by decide) (Or.inr (by decide))).1⟩

/-! ## `Stages.Validate` -/

section Validate

variable {Stage V F : Type} (validateStage : F → Stage → Option (GoError V))
  (ValidateName : V → String → V) (formats : F)

theorem models.Stages.validateStagesLoop_skip (pre rest : List (Option Stage)) (i : Nat)
    (hpre : ∀ t, some t ∈ pre → validateStage formats t = none) :
    models.Stages.validateStagesLoop validateStage ValidateName formats i (pre ++ rest)
      = models.Stages.validateStagesLoop validateStage ValidateName formats (i + pre.length)
          rest := by
  induction pre generalizing i with
  | nil => simp
  | cons x pre ih =>
    have ih2 := ih (i + 1) (fun t ht => hpre t (List.mem_cons_of_mem _ ht))
    have hlen : i + (x :: pre).length = i + 1 + pre.length := by simp; omega
    cases x with
    | none =>
      simp only [List.cons_append, models.Stages.validateStagesLoop, swag.IsZero,
        Option.isNone_none, if_true]
      rw [hlen]
      exact ih2
    | some t =>
      have ht : validateStage formats t = none := hpre t (List.mem_cons_self _ _)
      simp only [List.cons_append, models.Stages.validateStagesLoop, swag.IsZero,
        Option.isNone_some, ht, Bool.false_eq_true, if_false]
      rw [hlen]
      exact ih2

theorem models.Stages.validateStagesLoop_fail (s : Stage) (rest : List (Option Stage))
    (i : Nat) (e : GoError V) (he : validateStage formats s = some e) :
    (∀ ve, e = GoError.validation ve →
      models.Stages.validateStagesLoop validateStage ValidateName formats i (some s :: rest)
        = some (GoError.validation (ValidateName ve ("stages." ++ strconv.Itoa i)))) ∧
    ((∀ ve, e ≠ GoError.validation ve) →
      models.Stages.validateStagesLoop validateStage ValidateName formats i (some s :: rest)
        = some e) := by
  have hname : "stages" ++ "." = "stages." := by decide
  refine ⟨?_, ?_⟩
  · intro ve hve
    subst hve
    simp [models.Stages.validateStagesLoop, swag.IsZero, he, hname]
  · intro hne
    cases e with
    | validation ve => exact absurd rfl (hne ve)
    | composite errs => simp [models.Stages.validateStagesLoop, swag.IsZero, he]
    | other msg => simp [models.Stages.validateStagesLoop, swag.IsZero, he]

theorem models.Stages.validateStagesLoop_eq_none_iff (stages : List (Option Stage)) (i : Nat) :
    models.Stages.validateStagesLoop validateStage ValidateName formats i stages = none ↔
      ∀ t, some t ∈ stages → validateStage formats t = none := by
  induction stages generalizing i with
  | nil => simp [models.Stages.validateStagesLoop]
  | cons x stages ih =>
    cases x with
    | none =>
      simp only [models.Stages.validateStagesLoop, swag.IsZero, Option.isNone_none, if_true,
        ih (i + 1)]
      simp
    | some t =>
      cases ht : validateStage formats t with
      | none =>
        simp only [models.Stages.validateStagesLoop, swag.IsZero, Option.isNone_some, ht]
        simp only [Bool.false_eq_true, if_false, ih (i + 1), List.mem_cons, Option.some.injEq]
        constructor
        · rintro h u (rfl | hu)
          · exact ht
          · exact h u hu
        · intro h u hu
          exact h u (Or.inr hu)
      | some e =>
        have hfail : models.Stages.validateStagesLoop validateStage ValidateName formats i
            (some t :: stages) ≠ none := by
          cases e with
          | validation ve =>
            rw [(models.Stages.validateStagesLoop_fail validateStage ValidateName formats t
              stages i _ ht).1 ve rfl]
            simp
          | composite errs =>
            rw [(models.Stages.validateStagesLoop_fail validateStage ValidateName formats t
              stages i _ ht).2 (by intro ve; simp)]
            simp
          | other msg =>
            rw [(models.Stages.validateStagesLoop_fail validateStage ValidateName formats t
              stages i _ ht).2 (by intro ve; simp)]
            simp
        constructor
        · intro h
          exact absurd h hfail
        · intro h
          have := h t (List.mem_cons_self _ _)
          rw [ht] at this
          cases this

theorem models.Stages.exists_first_failure (stages : List (Option Stage))
    (h : ¬ ∀ t, some t ∈ stages → validateStage formats t = none) :
    ∃ pre s rest e, stages = pre ++ some s :: rest ∧
      (∀ t, some t ∈ pre → validateStage formats t = none) ∧
      validateStage formats s = some e := by
  induction stages with
  | nil => exact absurd (by simp) h
  | cons x stages ih =>
    by_cases hx : ∀ t, x = some t → validateStage formats t = none
    · have hrest : ¬ ∀ t, some t ∈ stages → validateStage formats t = none := by
        intro hall
        apply h
        intro t ht
        rcases List.mem_cons.mp ht with heq | hmem
        · exact hx t heq.symm
        · exact hall t hmem
      obtain ⟨pre, s, rest, e, hst, hpre, hs⟩ := ih hrest
      refine ⟨x :: pre, s, rest, e, by rw [hst]; rfl, ?_, hs⟩
      intro t ht
      rcases List.mem_cons.mp ht with heq | hmem
      · exact hx t heq.symm
      · exact hpre t hmem
    · push_neg at hx
      obtain ⟨t, rfl, ht⟩ := hx
      obtain ⟨e, he⟩ := Option.ne_none_iff_exists'.mp ht
      exact ⟨[], t, stages, e, rfl, by simp, he⟩

/-- C8: `Validate` returns nil exactly when every non-nil element of the list passes its
own `Validate` (so always for a nil list, an empty list and nil elements). Otherwise the list
has a first failing non-nil element, at some index i, and what is reported is the failure of
that element whatever follows it in the list: a validation error is given the name "stages."
followed by the decimal rendering of i through `ValidateName`, any other error is kept as it
is; `validateStages` returns it and `Validate` returns it as the one member of the composite
validation error. -/
theorem Stages_Validate_first_failure (m : models.Stages Stage) :
    (m.Validate validateStage ValidateName formats = none ↔
      ∀ stages, m.Stages = some stages →
        ∀ t, some t ∈ stages → validateStage formats t = none) ∧
    (m.Validate validateStage ValidateName formats ≠ none →
      ∃ pre s rest e, m.Stages = some (pre ++ some s :: rest) ∧
        (∀ t, some t ∈ pre → validateStage formats t = none) ∧
        validateStage formats s = some e) ∧
    (∀ pre s rest e, m.Stages = some (pre ++ some s :: rest) →
      (∀ t, some t ∈ pre → validateStage formats t = none) →
      validateStage formats s = some e →
      (∀ ve, e = GoError.validation ve →
        m.validateStages validateStage ValidateName formats
          = some (GoError.validation
              (ValidateName ve ("stages." ++ strconv.Itoa pre.length))) ∧
        m.Validate validateStage ValidateName formats
          = some (GoError.composite [GoError.validation
              (ValidateName ve ("stages." ++ strconv.Itoa pre.length))])) ∧
      ((∀ ve, e ≠ GoError.validation ve) →
        m.validateStages validateStage ValidateName formats = some e ∧
        m.Validate validateStage ValidateName formats = some (GoError.composite [e]))) := by
  have hV : ∀ r, m.validateStages validateStage ValidateName formats = some r →
      m.Validate validateStage ValidateName formats = some (GoError.composite [r]) := by
    intro r hr
    simp [models.Stages.Validate, hr]
  have hnone : m.Validate validateStage ValidateName formats = none ↔
      m.validateStages validateStage ValidateName formats = none := by
    cases hr : m.validateStages validateStage ValidateName formats with
    | none => simp [models.Stages.Validate, hr]
    | some r => simp [hV r hr]
  have hloop : ∀ stages, m.Stages = some stages →
      m.validateStages validateStage ValidateName formats
        = models.Stages.validateStagesLoop validateStage ValidateName formats 0 stages := by
    intro stages hst
    simp [models.Stages.validateStages, hst, swag.IsZero]
  have hiff : m.Validate validateStage ValidateName formats = none ↔
      ∀ stages, m.Stages = some stages →
        ∀ t, some t ∈ stages → validateStage formats t = none := by
    rw [hnone]
    cases hst : m.Stages with
    | none => simp [models.Stages.validateStages, hst, swag.IsZero]
    | some stages =>
      rw [hloop stages hst, models.Stages.validateStagesLoop_eq_none_iff]
      simp
  refine ⟨hiff, ?_, ?_⟩
  · intro hne
    rw [Ne, hiff] at hne
    cases hst : m.Stages with
    | none => exact absurd (fun stages h => by rw [hst] at h; cases h) hne
    | some stages =>
      have hfail : ¬ ∀ t, some t ∈ stages → validateStage formats t = none := by
        intro hall
        apply hne
        intro stages2 h2
        rw [hst] at h2
        cases h2
        exact hall
      obtain ⟨pre, s, rest, e, h1, h2, h3⟩ :=
        models.Stages.exists_first_failure validateStage formats stages hfail
      exact ⟨pre, s, rest, e, by rw [h1], h2, h3⟩
  · intro pre s rest e hst hpre he
    have hrun := hloop _ hst
    rw [models.Stages.validateStagesLoop_skip validateStage ValidateName formats pre
      (some s :: rest) 0 hpre, Nat.zero_add] at hrun
    have hfail := models.Stages.validateStagesLoop_fail validateStage ValidateName formats s
      rest pre.length e he
    refine ⟨?_, ?_⟩
    · intro ve hve
      have h1 := hrun.trans (hfail.1 ve hve)
      exact ⟨h1, hV _ h1⟩
    · intro hne
      have h1 := hrun.trans (hfail.2 hne)
      exact ⟨h1, hV _ h1⟩

end Validate

/-- C8 on a list of four stages: the first and second pass (a valid stage and a nil
element), the third fails with a validation error and the fourth with another error; the
validation error of the third is reported under the name "stages.2", and a list without a
failing element passes. -/
theorem Stages_Validate_first_failure_witness :
    models.Stages.Validate Scenario.validateStage Scenario.ValidateName
        (models.Stages.mk [] 0 (some ([some "dev", none] ++ some "" :: [some "broken"])) 0) ()
      = some (GoError.composite [GoError.validation "stages.2"]) ∧
    models.Stages.Validate Scenario.validateStage Scenario.ValidateName
        (models.Stages.mk [] 0 (some [some "dev", none, some "prod"]) 0) () = none :=
  ⟨(((Stages_Validate_first_failure Scenario.validateStage Scenario.ValidateName ()
        (models.Stages.mk [] 0 (some ([some "dev", none] ++ some "" :: [some "broken"])) 0)).2.2
        [some "dev", none] "" [some "broken"] (GoError.validation "") rfl
        (by
          intro t ht
          simp only [List.mem_cons, Option.some.injEq, List.mem_singleton, reduceCtorEq,
            List.mem_nil_iff, or_false] at ht
          subst ht
          rfl)
        rfl).1 "" rfl).2,
   (Stages_Validate_first_failure Scenario.validateStage Scenario.ValidateName ()
        (models.Stages.mk [] 0 (some [some "dev", none, some "prod"]) 0)).1.2
        (by
          intro stages h t ht
          cases h
          simp only [List.mem_cons, Option.some.injEq, reduceCtorEq, List.mem_nil_iff,
            or_false, false_or] at ht
          rcases ht with rfl | rfl <;> rfl)⟩

/-! ## `MarshalBinary` and `UnmarshalBinary` -/

/-- C10, as stated, fails: a `Stages` whose NextPageKey is the one byte 0xFF, which is not
well-formed UTF-8, marshals without error, the decoder accepts the bytes, and the receiver
is left with the three bytes of U+FFFD as its NextPageKey, so it differs from the value
that was marshalled. -/
theorem Stages_round_trip_fails_on_invalid_UTF8 :
    models.Stages.MarshalBinary Scenario.WriteJSON (some (models.Stages.mk [255] 0 none 0))
      = (some "\x7b\"nextPageKey\":\"\\ufffd\",\"stages\":null\x7d", none) ∧
    (models.Stages.UnmarshalBinary Scenario.ReadJSON models.Stages.zero
      "\x7b\"nextPageKey\":\"\\ufffd\",\"stages\":null\x7d").2 = none ∧
    (models.Stages.UnmarshalBinary Scenario.ReadJSON models.Stages.zero
      "\x7b\"nextPageKey\":\"\\ufffd\",\"stages\":null\x7d").1.NextPageKey
      = [239, 191, 189] ∧
    (models.Stages.UnmarshalBinary Scenario.ReadJSON models.Stages.zero
      "\x7b\"nextPageKey\":\"\\ufffd\",\"stages\":null\x7d").1
      ≠ models.Stages.mk [255] 0 none 0 := by
  have hw : Scenario.WriteJSON (models.Stages.mk [255] 0 none 0)
      = .ok "\x7b\"nextPageKey\":\"\\ufffd\",\"stages\":null\x7d" := by decide
  have hr : Scenario.readNextPageKey "\x7b\"nextPageKey\":\"\\ufffd\",\"stages\":null\x7d"
      = .ok (some [239, 191, 189]) := by decide
  have hu : models.Stages.UnmarshalBinary Scenario.ReadJSON models.Stages.zero
      "\x7b\"nextPageKey\":\"\\ufffd\",\"stages\":null\x7d"
        = (models.Stages.mk [239, 191, 189] 0 none 0, none) := by
    simp [models.Stages.UnmarshalBinary, Scenario.ReadJSON, hr, models.Stages.zero, Except.map]
  refine ⟨?_, ?_, ?_, ?_⟩
  · simp [models.Stages.MarshalBinary, hw]
  · rw [hu]
  · rw [hu]
  · rw [hu]
    intro h
    have hkey := congrArg models.Stages.NextPageKey h
    revert hkey
    decide

/-- C10, amended: when `MarshalBinary` succeeds on a non-nil `m` with the bytes `b`, these
are the bytes `swag.WriteJSON` wrote for `m`, and for every receiver `UnmarshalBinary(b)`
succeeds and leaves the receiver equal to `m` exactly when `swag.ReadJSON` decodes `b`, into
a zero value, back to `m`. What the receiver held before plays no part: two receivers get
the same error and, on success, the same value, and a failed call leaves the receiver as it
was. -/
theorem Stages_round_trip {Stage : Type}
    (WriteJSON : models.Stages Stage → Except String String)
    (ReadJSON : String → models.Stages Stage → Except String (models.Stages Stage))
    (m : models.Stages Stage) (b : String)
    (hMarshal : models.Stages.MarshalBinary WriteJSON (some m) = (some b, none)) :
    WriteJSON m = .ok b ∧
    (∀ r, models.Stages.UnmarshalBinary ReadJSON r b = (m, none) ↔
      ReadJSON b models.Stages.zero = .ok m) ∧
    (∀ r1 r2,
      (models.Stages.UnmarshalBinary ReadJSON r1 b).2
        = (models.Stages.UnmarshalBinary ReadJSON r2 b).2 ∧
      ((models.Stages.UnmarshalBinary ReadJSON r1 b).2 = none →
        (models.Stages.UnmarshalBinary ReadJSON r1 b).1
          = (models.Stages.UnmarshalBinary ReadJSON r2 b).1)) ∧
    (∀ r, (models.Stages.UnmarshalBinary ReadJSON r b).2 ≠ none →
      (models.Stages.UnmarshalBinary ReadJSON r b).1 = r) := by
  refine ⟨?_, ?_, ?_, ?_⟩
  · unfold models.Stages.MarshalBinary at hMarshal
    rcases hw : WriteJSON m with e | b2
    · simp [hw] at hMarshal
    · simp only [hw, Prod.mk.injEq, Option.some.injEq, and_true] at hMarshal
      rw [hMarshal]
  · intro r
    unfold models.Stages.UnmarshalBinary
    rcases hr : ReadJSON b models.Stages.zero with e | res
    · simp [hr]
    · simp [hr]
  · intro r1 r2
    unfold models.Stages.UnmarshalBinary
    rcases hr : ReadJSON b models.Stages.zero with e | res
    · simp [hr]
    · simp [hr]
  · intro r
    unfold models.Stages.UnmarshalBinary
    rcases hr : ReadJSON b models.Stages.zero with e | res
    · simp [hr]
    · simp [hr]

/-- The amended C10 on a page key of plain ASCII, "abc": the bytes written for the value
decode back to it, and a receiver that held another key is left equal to the value. -/
theorem Stages_round_trip_witness :
    models.Stages.UnmarshalBinary Scenario.ReadJSON (models.Stages.mk [120] 0 none 0)
        "\x7b\"nextPageKey\":\"abc\",\"stages\":null\x7d"
      = (models.Stages.mk [97, 98, 99] 0 none 0, none) :=
  ((Stages_round_trip Scenario.WriteJSON Scenario.ReadJSON
      (models.Stages.mk [97, 98, 99] 0 none 0)
      "\x7b\"nextPageKey\":\"abc\",\"stages\":null\x7d"
      (by
        have hw : Scenario.WriteJSON (models.Stages.mk [97, 98, 99] 0 none 0)
            = .ok "\x7b\"nextPageKey\":\"abc\",\"stages\":null\x7d" := by decide
        simp [models.Stages.MarshalBinary, hw])).2.1
      (models.Stages.mk [120] 0 none 0)).2
    (by
      have hr : Scenario.readNextPageKey "\x7b\"nextPageKey\":\"abc\",\"stages\":null\x7d"
          = .ok (some [97, 98, 99]) := by decide
      simp [Scenario.ReadJSON, hr, models.Stages.zero, Except.map])

end Keptn
